import Mathlib

/-!
# The `community` plugin (prow/plugins/community/community.go)

A shallow embedding of the plugin that puts the community-contribution label on
pull requests whose sender is not an owner of the changed files, and the
properties of its specification.

* Go's `error` is a message string; a nil error is `none`.
* A Go call returning `(value, error)` is an `Except error value`; the value is
  never read by the plugin when the error is non-nil.
* `sets.String` (a Go map used as a set) is a `Finset String`; `Union` is `∪` and
  `Has` is `∈`.
* The collaborators are interfaces in Go.  Here they are records of functions
  that pass an explicit state `σ` (the outside world) along.
-/

namespace community

/-! ## Data model -/

/-- Go's `error`, represented by its message. -/
abbrev error := String

/-- PluginName defines this plugin's registered name. -/
def PluginName : String := "community"

/-- The `github.Label` record; only its name is read. -/
structure Label where
  Name : String
  deriving DecidableEq, Repr

/-- The `github.PullRequestChange` record; only its file name is read. -/
structure PullRequestChange where
  Filename : String
  deriving DecidableEq, Repr

/-- The `github.User` record. -/
structure User where
  Login : String
  Name : String
  deriving DecidableEq, Repr

/-- The `github.Repo` record. -/
structure Repo where
  Owner : User
  Name : String
  deriving DecidableEq, Repr

/-- The `github.PullRequestBranch` record. -/
structure PullRequestBranch where
  Repo : Repo
  Ref : String
  deriving DecidableEq, Repr

/-- The `github.PullRequest` record. -/
structure PullRequest where
  Number : Int
  Base : PullRequestBranch
  User : User
  deriving DecidableEq, Repr

/-- The `github.PullRequestEventAction` type: a string in Go. -/
abbrev PullRequestEventAction := String

/-- Modelled from the spec: the action constants of package `github` are declared
outside this plugin; the spec names the kinds opened, reopened and synchronized. -/
def PullRequestActionOpened : PullRequestEventAction := "opened"

/-- Modelled from the spec: see `PullRequestActionOpened`. -/
def PullRequestActionReopened : PullRequestEventAction := "reopened"

/-- Modelled from the spec: see `PullRequestActionOpened`. -/
def PullRequestActionSynchronize : PullRequestEventAction := "synchronize"

/-- Modelled from the spec: an action kind outside the three qualifying ones,
used by the plugin's tests. -/
def PullRequestActionReviewRequested : PullRequestEventAction := "review_requested"

/-- The `github.PullRequestEvent` record. -/
structure PullRequestEvent where
  Action : PullRequestEventAction
  PullRequest : PullRequest
  Sender : User
  deriving DecidableEq, Repr

/-- The part of `repoowners.RepoOwner` the plugin uses: the approvers and the
reviewers of a path. -/
structure RepoOwner where
  Approvers : String → Finset String
  Reviewers : String → Finset String

/-- The part of `repoowners.Interface` the plugin uses, over a world `σ`. -/
structure Interface (σ : Type) where
  LoadRepoOwners : String → String → String → σ → Except error RepoOwner × σ

/-- The `githubClient` interface of the plugin, over a world `σ`. -/
structure githubClient (σ : Type) where
  AddLabel : String → String → Int → String → σ → Option error × σ
  GetIssueLabels : String → String → Int → σ → Except error (List Label) × σ
  GetRepoLabels : String → String → σ → Except error (List Label) × σ
  GetPullRequestChanges : String → String → Int → σ →
    Except error (List PullRequestChange) × σ

/-- The part of `plugins.Agent` the plugin uses. -/
structure Agent (σ : Type) where
  GitHubClient : githubClient σ
  OwnersClient : Interface σ

/-- Modelled from the spec: `github.NormLogin` is declared outside this plugin; the
spec describes it as case-insensitive login normalization, which is lower-casing
of every character of the login. -/
def NormLogin (s : String) : String := String.mk (s.data.map Char.toLower)

/-! ## The plugin -/

/-- loadReviewers returns all reviewers and approvers from all OWNERS files that
cover the provided filenames. -/
def loadReviewers (ro : RepoOwner) (filenames : List String) : Finset String :=
  filenames.foldl
    (fun reviewers filename => (reviewers ∪ ro.Approvers filename) ∪ ro.Reviewers filename) ∅

/-- getChangedFiles returns all the changed files for the provided pull request. -/
def getChangedFiles {σ : Type} (gc : githubClient σ) (org repo : String) (number : Int)
    (s : σ) : Except error (List String) × σ :=
  match gc.GetPullRequestChanges org repo number s with
  | (.error _, s1) =>
    (.error (PluginName ++ " failed to get PR changes for " ++ org ++ "/" ++ repo ++ "#"
      ++ toString number), s1)
  | (.ok changes, s1) =>
    (.ok (changes.foldl (fun filenames change => filenames ++ [change.Filename]) []), s1)

/-- The loop of `handle` that determines if there is a label already: the flag
starts false and is set by every label named `name`. -/
def hasLabelLoop (name : String) (currentLabels : List Label) : Bool :=
  currentLabels.foldl (fun hasLabel l => if l.Name = name then true else hasLabel) false

/-- The function `handle`.  `CommunityContribution` is the constant
`labels.CommunityContribution`, declared outside this plugin and taken as a
parameter. -/
def handle {σ : Type} (CommunityContribution : String) (gc : githubClient σ)
    (oc : Interface σ) (pre : PullRequestEvent) (s : σ) : Option error × σ :=
  let org := pre.PullRequest.Base.Repo.Owner.Login
  let repo := pre.PullRequest.Base.Repo.Name
  let number := pre.PullRequest.Number
  match oc.LoadRepoOwners org repo pre.PullRequest.Base.Ref s with
  | (.error err, s1) => (some ("error loading RepoOwners: " ++ err), s1)
  | (.ok ro, s1) =>
    match getChangedFiles gc org repo number s1 with
    | (.error err, s2) => (some err, s2)
    | (.ok filenames, s2) =>
      if NormLogin pre.Sender.Name ∉ loadReviewers ro filenames then
        match gc.GetIssueLabels org repo number s2 with
        | (.error err, s3) =>
          (some ("could not get labels for PR " ++ org ++ "/" ++ repo ++ ":"
            ++ toString number ++ " in " ++ PluginName ++ " plugin: " ++ err), s3)
        | (.ok currentLabels, s3) =>
          if hasLabelLoop CommunityContribution currentLabels = false then
            match gc.AddLabel org repo number CommunityContribution s3 with
            | (some _, s4) =>
              (some ("github failed to add the following label: " ++ CommunityContribution),
                s4)
            | (none, s4) => (none, s4)
          else (none, s3)
      else (none, s2)

/-- The registered entry point `handlePullRequest`. -/
def handlePullRequest {σ : Type} (CommunityContribution : String) (pc : Agent σ)
    (pre : PullRequestEvent) (s : σ) : Option error × σ :=
  if pre.Action ≠ PullRequestActionOpened ∧
      pre.Action ≠ PullRequestActionReopened ∧
      pre.Action ≠ PullRequestActionSynchronize then
    (none, s)
  else
    handle CommunityContribution pc.GitHubClient pc.OwnersClient pre s

/-! ## The outside world -/

/-- A collaborator call, with its arguments. -/
inductive Call where
  | LoadRepoOwners (org repo base : String)
  | GetPullRequestChanges (org repo : String) (number : Int)
  | GetIssueLabels (org repo : String) (number : Int)
  | GetRepoLabels (owner repo : String)
  | AddLabel (org repo : String) (number : Int) (label : String)
  deriving DecidableEq, Repr

/-- Whether a call is the label mutation. -/
def Call.isAddLabel : Call → Bool
  | .AddLabel _ _ _ _ => true
  | _ => false

/-- Whether a call reads the labels of a pull request. -/
def Call.isGetIssueLabels : Call → Bool
  | .GetIssueLabels _ _ _ => true
  | _ => false

/-- The state of the services behind the two interfaces (the ownership loader, the
changed-paths listing and the label store of the hosting platform), which the
plugin only reaches through its collaborators.  A world holds what each of them
answers, the labels attached to every pull request, the failures of the label
read and of the label mutation, and the calls made so far, oldest first. -/
structure World where
  loadRepoOwners : String → String → String → Except error RepoOwner
  pullRequestChanges : String → String → Int → Except error (List PullRequestChange)
  issueLabels : String → String → Int → List Label
  repoLabels : String → String → Except error (List Label)
  getIssueLabelsErr : String → String → Int → Option error
  addLabelErr : String → String → Int → String → Option error
  calls : List Call

/-- The world after one more call. -/
def World.record (w : World) (c : Call) : World :=
  { w with calls := w.calls ++ [c] }

/-- The label state after `label` is attached to one pull request. -/
def attach (labels : String → String → Int → List Label) (org repo : String) (number : Int)
    (label : String) : String → String → Int → List Label :=
  fun o r n => if o = org ∧ r = repo ∧ n = number then labels o r n ++ [⟨label⟩]
    else labels o r n

/-- The ownership loader of a world: it answers from the snapshot and records the
call. -/
def World.ownersClient : Interface World where
  LoadRepoOwners org repo base w :=
    (w.loadRepoOwners org repo base, w.record (.LoadRepoOwners org repo base))

/-- The hosting platform of a world.  Every operation records its call; the reads
answer from the world and change nothing else; a successful `AddLabel` attaches
the label, so that the next `GetIssueLabels` sees it, and a failed one leaves the
labels as they were. -/
def World.githubClient : githubClient World where
  AddLabel org repo number label w :=
    match w.addLabelErr org repo number label with
    | some e => (some e, w.record (.AddLabel org repo number label))
    | none =>
      (none, { w.record (.AddLabel org repo number label) with
                issueLabels := attach w.issueLabels org repo number label })
  GetIssueLabels org repo number w :=
    match w.getIssueLabelsErr org repo number with
    | some e => (.error e, w.record (.GetIssueLabels org repo number))
    | none => (.ok (w.issueLabels org repo number), w.record (.GetIssueLabels org repo number))
  GetRepoLabels owner repo w :=
    (w.repoLabels owner repo, w.record (.GetRepoLabels owner repo))
  GetPullRequestChanges org repo number w :=
    (w.pullRequestChanges org repo number, w.record (.GetPullRequestChanges org repo number))

/-- The agent of a world. -/
def World.agent : Agent World where
  GitHubClient := World.githubClient
  OwnersClient := World.ownersClient

/-- Whether a label named `name` is in a list of labels. -/
def labelPresent (name : String) (ls : List Label) : Prop := ∃ l ∈ ls, l.Name = name

instance (name : String) (ls : List Label) : Decidable (labelPresent name ls) :=
  inferInstanceAs (Decidable (∃ l ∈ ls, l.Name = name))

/-- The file names of a list of changes. -/
def filenamesOf (changes : List PullRequestChange) : List String :=
  changes.map (fun change => change.Filename)

/-- The plugin run in a world. -/
def run (CommunityContribution : String) (pre : PullRequestEvent) (w : World) :
    Option error × World :=
  handle CommunityContribution World.githubClient World.ownersClient pre w

/-- The login of the owner of the base repository of an event. -/
def org (pre : PullRequestEvent) : String := pre.PullRequest.Base.Repo.Owner.Login

/-- The name of the base repository of an event. -/
def repo (pre : PullRequestEvent) : String := pre.PullRequest.Base.Repo.Name

/-- The number of the pull request of an event. -/
def number (pre : PullRequestEvent) : Int := pre.PullRequest.Number

/-- The base ref of the pull request of an event. -/
def baseRef (pre : PullRequestEvent) : String := pre.PullRequest.Base.Ref

/-- The authorized set in the words of the spec: the union, over the changed
paths, of the approvers and the reviewers of the path. -/
def authorizedSet (ro : RepoOwner) (changedPaths : List String) : Finset String :=
  changedPaths.toFinset.biUnion (fun p => ro.Approvers p ∪ ro.Reviewers p)

/-- Two identities are equal up to letter case when their lower-cased forms are
equal. -/
def EqUpToCase (a b : String) : Prop := NormLogin a = NormLogin b

instance (a b : String) : Decidable (EqUpToCase a b) :=
  inferInstanceAs (Decidable (NormLogin a = NormLogin b))

/-- An event with another sender name. -/
def withSenderName (pre : PullRequestEvent) (name : String) : PullRequestEvent :=
  { pre with Sender := { pre.Sender with Name := name } }

/-! ## The worlds a run of `handle` can end in -/

/-- The world after the ownership load of an event. -/
def afterLoad (pre : PullRequestEvent) (w : World) : World :=
  w.record (.LoadRepoOwners (org pre) (repo pre) (baseRef pre))

/-- The world after the ownership load and the changed-paths fetch. -/
def afterChanges (pre : PullRequestEvent) (w : World) : World :=
  (afterLoad pre w).record (.GetPullRequestChanges (org pre) (repo pre) (number pre))

/-- The world after the ownership load, the changed-paths fetch and the label read. -/
def afterLabels (pre : PullRequestEvent) (w : World) : World :=
  (afterChanges pre w).record (.GetIssueLabels (org pre) (repo pre) (number pre))

/-- The world after all four calls, the label mutation having failed. -/
def afterFailedAdd (target : String) (pre : PullRequestEvent) (w : World) : World :=
  (afterLabels pre w).record (.AddLabel (org pre) (repo pre) (number pre) target)

/-- The world after all four calls, the label mutation having succeeded. -/
def afterAdd (target : String) (pre : PullRequestEvent) (w : World) : World :=
  { afterFailedAdd target pre w with
    issueLabels := attach w.issueLabels (org pre) (repo pre) (number pre) target }

/-! ## The fixtures of `community_test.go` -/

/-- The owners of `createFakeOwnersClient`: the approvers and reviewers of
`doc/README.md`; a path missing from the Go maps has the nil set. -/
def createFakeOwnersClient : RepoOwner where
  Approvers path := if path = "doc/README.md" then {"user-1", "user-2"} else ∅
  Reviewers path :=
    if path = "doc/README.md" then {"user-1", "user-3", "user-4", "user-5"} else ∅

/-- The event of a test case: pull request 101 of kubernetes/kubernetes on master. -/
def testEvent (action : PullRequestEventAction) (name : String) : PullRequestEvent where
  Action := action
  PullRequest :=
    { Number := 101
      Base := { Repo := { Owner := { Login := "kubernetes", Name := "" }, Name := "kubernetes" }
                Ref := "master" }
      User := { Login := name, Name := name } }
  Sender := { Login := "", Name := name }

/-- The world of a test case over given owners: the changed files of pull request
101, the labels present on it, and no failing call. -/
def worldOf (ro : RepoOwner) (labelsPresent changedFiles : List String) : World where
  loadRepoOwners _ _ _ := .ok ro
  pullRequestChanges _ _ n :=
    .ok (if n = 101 then changedFiles.map (fun f => ⟨f⟩) else [])
  issueLabels o r n :=
    if o = "kubernetes" ∧ r = "kubernetes" ∧ n = 101 then labelsPresent.map (fun l => ⟨l⟩)
    else []
  repoLabels _ _ := .ok []
  getIssueLabelsErr _ _ _ := none
  addLabelErr _ _ _ _ := none
  calls := []

/-- The world of a test case: the fake owners, the changed files of pull request
101, the labels present on it, and no failing call. -/
def testWorld (labelsPresent changedFiles : List String) : World :=
  worldOf createFakeOwnersClient labelsPresent changedFiles

/-- Owners whose data spells an approver of `doc/README.md` with a capital. -/
def capitalOwners : RepoOwner where
  Approvers path := if path = "doc/README.md" then {"User-1"} else ∅
  Reviewers _ := ∅

/-- A value of the label constant for the test cases. -/
def testLabel : String := "community-contribution"

/-! ## Failures, messages and actions -/

/-- Whether a collaborator call fails in a world. -/
def Call.failsIn (w : World) : Call → Bool
  | .LoadRepoOwners o r b =>
    match w.loadRepoOwners o r b with
    | .error _ => true
    | .ok _ => false
  | .GetPullRequestChanges o r n =>
    match w.pullRequestChanges o r n with
    | .error _ => true
    | .ok _ => false
  | .GetIssueLabels o r n => (w.getIssueLabelsErr o r n).isSome
  | .GetRepoLabels o r =>
    match w.repoLabels o r with
    | .error _ => true
    | .ok _ => false
  | .AddLabel o r n l => (w.addLabelErr o r n l).isSome

/-- The calls issued by a run of `handle`: the calls recorded after those of the
world the run started in. -/
def issued (target : String) (pre : PullRequestEvent) (w : World) : List Call :=
  (run target pre w).2.calls.drop w.calls.length

/-- Whether a message contains a text. -/
def mentions (msg text : String) : Prop := text.data <:+: msg.data

instance (msg text : String) : Decidable (mentions msg text) :=
  inferInstanceAs (Decidable (text.data <:+: msg.data))

/-- An event with another action. -/
def withAction (pre : PullRequestEvent) (action : PullRequestEventAction) : PullRequestEvent :=
  { pre with Action := action }

/-- The test world of a non-owner, with a failing ownership load. -/
def loadFails : World :=
  { testWorld [] [] with loadRepoOwners := fun _ _ _ => .error "connection refused" }

/-- The test world of a non-owner, with a failing changed-paths fetch. -/
def changesFail : World :=
  { testWorld [] [] with pullRequestChanges := fun _ _ _ => .error "connection refused" }

/-- The test world of a non-owner, with a failing label read. -/
def labelsFail : World :=
  { testWorld [] [] with getIssueLabelsErr := fun _ _ _ => some "connection refused" }

/-- The test world of a non-owner, with a failing label mutation. -/
def addFails : World :=
  { testWorld [] [] with addLabelErr := fun _ _ _ _ => some "connection refused" }

end community

namespace community

/-! ## Lemmas on the loops -/

theorem filenames_loop (changes : List PullRequestChange) (acc : List String) :
    changes.foldl (fun filenames change => filenames ++ [change.Filename]) acc
      = acc ++ filenamesOf changes := by
  induction changes generalizing acc with
  | nil => simp [filenamesOf]
  | cons c cs ih => simp [ih, filenamesOf]

theorem hasLabelLoop_acc (name : String) (ls : List Label) (b : Bool) :
    ls.foldl (fun hasLabel l => if l.Name = name then true else hasLabel) b
      = (b || decide (labelPresent name ls)) := by
  induction ls generalizing b with
  | nil => simp [labelPresent]
  | cons l ls ih =>
    rw [List.foldl_cons, ih]
    by_cases h : l.Name = name
    · simp [h, labelPresent]
    · simp [h, labelPresent]

theorem hasLabelLoop_eq_true (name : String) (ls : List Label) :
    hasLabelLoop name ls = true ↔ labelPresent name ls := by
  unfold hasLabelLoop
  rw [hasLabelLoop_acc]
  simp

theorem hasLabelLoop_eq_false (name : String) (ls : List Label) :
    hasLabelLoop name ls = false ↔ ¬ labelPresent name ls := by
  unfold hasLabelLoop
  rw [hasLabelLoop_acc]
  simp

theorem loadReviewers_acc (ro : RepoOwner) (filenames : List String) (acc : Finset String)
    (x : String) :
    x ∈ filenames.foldl
        (fun reviewers filename => (reviewers ∪ ro.Approvers filename) ∪ ro.Reviewers filename)
        acc
      ↔ x ∈ acc ∨ ∃ p ∈ filenames, x ∈ ro.Approvers p ∨ x ∈ ro.Reviewers p := by
  induction filenames generalizing acc with
  | nil => simp
  | cons f fs ih =>
    rw [List.foldl_cons, ih]
    simp only [Finset.mem_union, List.mem_cons, exists_eq_or_imp]
    constructor
    · rintro (h | h)
      · rcases h with (h | h) | h
        · exact Or.inl h
        · exact Or.inr (Or.inl (Or.inl h))
        · exact Or.inr (Or.inl (Or.inr h))
      · exact Or.inr (Or.inr h)
    · rintro (h | h | h)
      · exact Or.inl (Or.inl (Or.inl h))
      · rcases h with h | h
        · exact Or.inl (Or.inl (Or.inr h))
        · exact Or.inl (Or.inr h)
      · exact Or.inr h

theorem mem_loadReviewers (ro : RepoOwner) (filenames : List String) (x : String) :
    x ∈ loadReviewers ro filenames
      ↔ ∃ p ∈ filenames, x ∈ ro.Approvers p ∨ x ∈ ro.Reviewers p := by
  unfold loadReviewers
  rw [loadReviewers_acc]
  simp

theorem attach_same (labels : String → String → Int → List Label) (o r : String) (n : Int)
    (l : String) : attach labels o r n l o r n = labels o r n ++ [⟨l⟩] := by
  simp [attach]

theorem labelPresent_attach (labels : String → String → Int → List Label) (o r : String)
    (n : Int) (l : String) : labelPresent l (attach labels o r n l o r n) := by
  rw [attach_same]
  exact ⟨⟨l⟩, by simp, rfl⟩

theorem labelPresent_attach_of (labels : String → String → Int → List Label)
    (o r o1 r1 : String) (n n1 : Int) (l name : String)
    (h : labelPresent name (labels o1 r1 n1)) :
    labelPresent name (attach labels o r n l o1 r1 n1) := by
  obtain ⟨x, hx, hn⟩ := h
  unfold attach
  split
  · exact ⟨x, by simp [hx], hn⟩
  · exact ⟨x, hx, hn⟩

/-! ## The runs of `handle` in a world, branch by branch -/

theorem run_load_failed (target : String) (pre : PullRequestEvent) (w : World) (e : error)
    (hro : w.loadRepoOwners (org pre) (repo pre) (baseRef pre) = .error e) :
    run target pre w = (some ("error loading RepoOwners: " ++ e), afterLoad pre w) := by
  simp only [org, repo, baseRef] at hro
  simp [run, handle, World.ownersClient, hro, afterLoad, org, repo, baseRef]

theorem run_changes_failed (target : String) (pre : PullRequestEvent) (w : World)
    (ro : RepoOwner) (e : error)
    (hro : w.loadRepoOwners (org pre) (repo pre) (baseRef pre) = .ok ro)
    (hch : w.pullRequestChanges (org pre) (repo pre) (number pre) = .error e) :
    run target pre w
      = (some (PluginName ++ " failed to get PR changes for " ++ org pre ++ "/" ++ repo pre
          ++ "#" ++ toString (number pre)), afterChanges pre w) := by
  simp only [org, repo, baseRef, number] at hro hch
  simp [run, handle, getChangedFiles, World.ownersClient, World.githubClient, World.record,
    hro, hch, afterLoad, afterChanges, org, repo, baseRef, number]

theorem run_authorized (target : String) (pre : PullRequestEvent) (w : World)
    (ro : RepoOwner) (changes : List PullRequestChange)
    (hro : w.loadRepoOwners (org pre) (repo pre) (baseRef pre) = .ok ro)
    (hch : w.pullRequestChanges (org pre) (repo pre) (number pre) = .ok changes)
    (hin : NormLogin pre.Sender.Name ∈ loadReviewers ro (filenamesOf changes)) :
    run target pre w = (none, afterChanges pre w) := by
  simp only [org, repo, baseRef, number] at hro hch
  simp [run, handle, getChangedFiles, World.ownersClient, World.githubClient, World.record,
    hro, hch, afterLoad, afterChanges, org, repo, baseRef, number, filenames_loop, hin]

theorem run_labels_failed (target : String) (pre : PullRequestEvent) (w : World)
    (ro : RepoOwner) (changes : List PullRequestChange) (e : error)
    (hro : w.loadRepoOwners (org pre) (repo pre) (baseRef pre) = .ok ro)
    (hch : w.pullRequestChanges (org pre) (repo pre) (number pre) = .ok changes)
    (hout : NormLogin pre.Sender.Name ∉ loadReviewers ro (filenamesOf changes))
    (hget : w.getIssueLabelsErr (org pre) (repo pre) (number pre) = some e) :
    run target pre w
      = (some ("could not get labels for PR " ++ org pre ++ "/" ++ repo pre ++ ":"
          ++ toString (number pre) ++ " in " ++ PluginName ++ " plugin: " ++ e),
         afterLabels pre w) := by
  simp only [org, repo, baseRef, number] at hro hch hget
  simp [run, handle, getChangedFiles, World.ownersClient, World.githubClient, World.record,
    hro, hch, hget, afterLoad, afterChanges, afterLabels, org, repo, baseRef, number,
    filenames_loop, hout]

theorem run_label_present (target : String) (pre : PullRequestEvent) (w : World)
    (ro : RepoOwner) (changes : List PullRequestChange)
    (hro : w.loadRepoOwners (org pre) (repo pre) (baseRef pre) = .ok ro)
    (hch : w.pullRequestChanges (org pre) (repo pre) (number pre) = .ok changes)
    (hout : NormLogin pre.Sender.Name ∉ loadReviewers ro (filenamesOf changes))
    (hget : w.getIssueLabelsErr (org pre) (repo pre) (number pre) = none)
    (hhas : labelPresent target (w.issueLabels (org pre) (repo pre) (number pre))) :
    run target pre w = (none, afterLabels pre w) := by
  have hl := (hasLabelLoop_eq_true target _).mpr hhas
  simp only [org, repo, baseRef, number] at hro hch hget hl
  simp [run, handle, getChangedFiles, World.ownersClient, World.githubClient, World.record,
    hro, hch, hget, hl, afterLoad, afterChanges, afterLabels, org, repo, baseRef, number,
    filenames_loop, hout]

theorem run_add_failed (target : String) (pre : PullRequestEvent) (w : World)
    (ro : RepoOwner) (changes : List PullRequestChange) (e : error)
    (hro : w.loadRepoOwners (org pre) (repo pre) (baseRef pre) = .ok ro)
    (hch : w.pullRequestChanges (org pre) (repo pre) (number pre) = .ok changes)
    (hout : NormLogin pre.Sender.Name ∉ loadReviewers ro (filenamesOf changes))
    (hget : w.getIssueLabelsErr (org pre) (repo pre) (number pre) = none)
    (hhas : ¬ labelPresent target (w.issueLabels (org pre) (repo pre) (number pre)))
    (hadd : w.addLabelErr (org pre) (repo pre) (number pre) target = some e) :
    run target pre w
      = (some ("github failed to add the following label: " ++ target),
         afterFailedAdd target pre w) := by
  have hl := (hasLabelLoop_eq_false target _).mpr hhas
  simp only [org, repo, baseRef, number] at hro hch hget hl hadd
  simp [run, handle, getChangedFiles, World.ownersClient, World.githubClient, World.record,
    hro, hch, hget, hl, hadd, afterLoad, afterChanges, afterLabels, afterFailedAdd, org, repo,
    baseRef, number, filenames_loop, hout]

theorem run_add_ok (target : String) (pre : PullRequestEvent) (w : World)
    (ro : RepoOwner) (changes : List PullRequestChange)
    (hro : w.loadRepoOwners (org pre) (repo pre) (baseRef pre) = .ok ro)
    (hch : w.pullRequestChanges (org pre) (repo pre) (number pre) = .ok changes)
    (hout : NormLogin pre.Sender.Name ∉ loadReviewers ro (filenamesOf changes))
    (hget : w.getIssueLabelsErr (org pre) (repo pre) (number pre) = none)
    (hhas : ¬ labelPresent target (w.issueLabels (org pre) (repo pre) (number pre)))
    (hadd : w.addLabelErr (org pre) (repo pre) (number pre) target = none) :
    run target pre w = (none, afterAdd target pre w) := by
  have hl := (hasLabelLoop_eq_false target _).mpr hhas
  simp only [org, repo, baseRef, number] at hro hch hget hl hadd
  simp [run, handle, getChangedFiles, World.ownersClient, World.githubClient, World.record,
    hro, hch, hget, hl, hadd, afterLoad, afterChanges, afterLabels, afterFailedAdd, afterAdd,
    org, repo, baseRef, number, filenames_loop, hout]

/-- Every run of `handle` in a world is one of seven: a failed ownership load, a
failed changed-paths fetch, an authorized sender, a failed label read, a label
already present, a failed label mutation, a label added. -/
theorem run_cases (target : String) (pre : PullRequestEvent) (w : World)
    (P : Option error × World → Prop)
    (hload : ∀ e, w.loadRepoOwners (org pre) (repo pre) (baseRef pre) = .error e →
      P (some ("error loading RepoOwners: " ++ e), afterLoad pre w))
    (hchanges : ∀ ro e, w.loadRepoOwners (org pre) (repo pre) (baseRef pre) = .ok ro →
      w.pullRequestChanges (org pre) (repo pre) (number pre) = .error e →
      P (some (PluginName ++ " failed to get PR changes for " ++ org pre ++ "/" ++ repo pre
          ++ "#" ++ toString (number pre)), afterChanges pre w))
    (hauth : ∀ ro changes, w.loadRepoOwners (org pre) (repo pre) (baseRef pre) = .ok ro →
      w.pullRequestChanges (org pre) (repo pre) (number pre) = .ok changes →
      NormLogin pre.Sender.Name ∈ loadReviewers ro (filenamesOf changes) →
      P (none, afterChanges pre w))
    (hlabels : ∀ ro changes e,
      w.loadRepoOwners (org pre) (repo pre) (baseRef pre) = .ok ro →
      w.pullRequestChanges (org pre) (repo pre) (number pre) = .ok changes →
      NormLogin pre.Sender.Name ∉ loadReviewers ro (filenamesOf changes) →
      w.getIssueLabelsErr (org pre) (repo pre) (number pre) = some e →
      P (some ("could not get labels for PR " ++ org pre ++ "/" ++ repo pre ++ ":"
          ++ toString (number pre) ++ " in " ++ PluginName ++ " plugin: " ++ e),
         afterLabels pre w))
    (hpresent : ∀ ro changes,
      w.loadRepoOwners (org pre) (repo pre) (baseRef pre) = .ok ro →
      w.pullRequestChanges (org pre) (repo pre) (number pre) = .ok changes →
      NormLogin pre.Sender.Name ∉ loadReviewers ro (filenamesOf changes) →
      w.getIssueLabelsErr (org pre) (repo pre) (number pre) = none →
      labelPresent target (w.issueLabels (org pre) (repo pre) (number pre)) →
      P (none, afterLabels pre w))
    (haddfail : ∀ ro changes e,
      w.loadRepoOwners (org pre) (repo pre) (baseRef pre) = .ok ro →
      w.pullRequestChanges (org pre) (repo pre) (number pre) = .ok changes →
      NormLogin pre.Sender.Name ∉ loadReviewers ro (filenamesOf changes) →
      w.getIssueLabelsErr (org pre) (repo pre) (number pre) = none →
      ¬ labelPresent target (w.issueLabels (org pre) (repo pre) (number pre)) →
      w.addLabelErr (org pre) (repo pre) (number pre) target = some e →
      P (some ("github failed to add the following label: " ++ target),
         afterFailedAdd target pre w))
    (haddok : ∀ ro changes,
      w.loadRepoOwners (org pre) (repo pre) (baseRef pre) = .ok ro →
      w.pullRequestChanges (org pre) (repo pre) (number pre) = .ok changes →
      NormLogin pre.Sender.Name ∉ loadReviewers ro (filenamesOf changes) →
      w.getIssueLabelsErr (org pre) (repo pre) (number pre) = none →
      ¬ labelPresent target (w.issueLabels (org pre) (repo pre) (number pre)) →
      w.addLabelErr (org pre) (repo pre) (number pre) target = none →
      P (none, afterAdd target pre w)) :
    P (run target pre w) := by
  cases hro : w.loadRepoOwners (org pre) (repo pre) (baseRef pre) with
  | error e =>
    rw [run_load_failed target pre w e hro]
    exact hload e hro
  | ok ro =>
    cases hch : w.pullRequestChanges (org pre) (repo pre) (number pre) with
    | error e =>
      rw [run_changes_failed target pre w ro e hro hch]
      exact hchanges ro e hro hch
    | ok changes =>
      by_cases hin : NormLogin pre.Sender.Name ∈ loadReviewers ro (filenamesOf changes)
      · rw [run_authorized target pre w ro changes hro hch hin]
        exact hauth ro changes hro hch hin
      · cases hget : w.getIssueLabelsErr (org pre) (repo pre) (number pre) with
        | some e =>
          rw [run_labels_failed target pre w ro changes e hro hch hin hget]
          exact hlabels ro changes e hro hch hin hget
        | none =>
          by_cases hhas : labelPresent target
              (w.issueLabels (org pre) (repo pre) (number pre))
          · rw [run_label_present target pre w ro changes hro hch hin hget hhas]
            exact hpresent ro changes hro hch hin hget hhas
          · cases hadd : w.addLabelErr (org pre) (repo pre) (number pre) target with
            | some e =>
              rw [run_add_failed target pre w ro changes e hro hch hin hget hhas hadd]
              exact haddfail ro changes e hro hch hin hget hhas hadd
            | none =>
              rw [run_add_ok target pre w ro changes hro hch hin hget hhas hadd]
              exact haddok ro changes hro hch hin hget hhas hadd

theorem calls_afterLoad (pre : PullRequestEvent) (w : World) :
    (afterLoad pre w).calls
      = w.calls ++ [Call.LoadRepoOwners (org pre) (repo pre) (baseRef pre)] := rfl

theorem calls_afterChanges (pre : PullRequestEvent) (w : World) :
    (afterChanges pre w).calls
      = w.calls ++ [Call.LoadRepoOwners (org pre) (repo pre) (baseRef pre),
          Call.GetPullRequestChanges (org pre) (repo pre) (number pre)] := by
  simp [afterChanges, afterLoad, World.record]

theorem calls_afterLabels (pre : PullRequestEvent) (w : World) :
    (afterLabels pre w).calls
      = w.calls ++ [Call.LoadRepoOwners (org pre) (repo pre) (baseRef pre),
          Call.GetPullRequestChanges (org pre) (repo pre) (number pre),
          Call.GetIssueLabels (org pre) (repo pre) (number pre)] := by
  simp [afterLabels, afterChanges, afterLoad, World.record]

theorem calls_afterFailedAdd (target : String) (pre : PullRequestEvent) (w : World) :
    (afterFailedAdd target pre w).calls
      = w.calls ++ [Call.LoadRepoOwners (org pre) (repo pre) (baseRef pre),
          Call.GetPullRequestChanges (org pre) (repo pre) (number pre),
          Call.GetIssueLabels (org pre) (repo pre) (number pre),
          Call.AddLabel (org pre) (repo pre) (number pre) target] := by
  simp [afterFailedAdd, afterLabels, afterChanges, afterLoad, World.record]

theorem calls_afterAdd (target : String) (pre : PullRequestEvent) (w : World) :
    (afterAdd target pre w).calls
      = w.calls ++ [Call.LoadRepoOwners (org pre) (repo pre) (baseRef pre),
          Call.GetPullRequestChanges (org pre) (repo pre) (number pre),
          Call.GetIssueLabels (org pre) (repo pre) (number pre),
          Call.AddLabel (org pre) (repo pre) (number pre) target] :=
  calls_afterFailedAdd target pre w

/-! ## The label reconciliation -/

/-- C1: when all collaborator calls succeed, the normalized sender is not in the
authorized set of the changed paths and the target label is not among the current
labels, `handle` returns nil, issues the four calls in order, the last and only
label mutation being `AddLabel` with the org, the name of the base repo, the
number of the pull request and the target label, and the target label is present
afterwards. -/
theorem handle_adds_label_when_unauthorized_and_absent
    (target : String) (pre : PullRequestEvent) (w : World) (ro : RepoOwner)
    (changes : List PullRequestChange)
    (hro : w.loadRepoOwners (org pre) (repo pre) (baseRef pre) = .ok ro)
    (hch : w.pullRequestChanges (org pre) (repo pre) (number pre) = .ok changes)
    (hget : w.getIssueLabelsErr (org pre) (repo pre) (number pre) = none)
    (hadd : w.addLabelErr (org pre) (repo pre) (number pre) target = none)
    (hout : NormLogin pre.Sender.Name ∉ loadReviewers ro (filenamesOf changes))
    (habsent : ¬ labelPresent target (w.issueLabels (org pre) (repo pre) (number pre))) :
    (run target pre w).1 = none ∧
    (run target pre w).2.calls
      = w.calls ++ [Call.LoadRepoOwners (org pre) (repo pre) (baseRef pre),
          Call.GetPullRequestChanges (org pre) (repo pre) (number pre),
          Call.GetIssueLabels (org pre) (repo pre) (number pre),
          Call.AddLabel (org pre) (repo pre) (number pre) target] ∧
    (run target pre w).2.calls.countP Call.isAddLabel
      = w.calls.countP Call.isAddLabel + 1 ∧
    labelPresent target ((run target pre w).2.issueLabels (org pre) (repo pre) (number pre)) := by
  rw [run_add_ok target pre w ro changes hro hch hout hget habsent hadd]
  refine ⟨rfl, ?_, ?_, ?_⟩
  · simp [afterAdd, afterFailedAdd, afterLabels, afterChanges, afterLoad, World.record]
  · simp [afterAdd, afterFailedAdd, afterLabels, afterChanges, afterLoad, World.record,
      List.countP_append, List.countP_cons, Call.isAddLabel]
  · exact labelPresent_attach _ _ _ _ _

/-- C1 at the test case of an owner of doc/README.md who changes only
random-path/README.md. -/
theorem handle_adds_label_when_unauthorized_and_absent_witness :
    NormLogin "user-1" ∉ loadReviewers createFakeOwnersClient ["random-path/README.md"] ∧
    (run testLabel (testEvent PullRequestActionOpened "user-1")
      (testWorld [] ["random-path/README.md"])).1 = none ∧
    (run testLabel (testEvent PullRequestActionOpened "user-1")
      (testWorld [] ["random-path/README.md"])).2.calls
      = [Call.LoadRepoOwners "kubernetes" "kubernetes" "master",
          Call.GetPullRequestChanges "kubernetes" "kubernetes" 101,
          Call.GetIssueLabels "kubernetes" "kubernetes" 101,
          Call.AddLabel "kubernetes" "kubernetes" 101 testLabel] ∧
    labelPresent testLabel
      ((run testLabel (testEvent PullRequestActionOpened "user-1")
        (testWorld [] ["random-path/README.md"])).2.issueLabels "kubernetes" "kubernetes" 101) :=
  have h := handle_adds_label_when_unauthorized_and_absent testLabel
    (testEvent PullRequestActionOpened "user-1") (testWorld [] ["random-path/README.md"])
    createFakeOwnersClient [⟨"random-path/README.md"⟩] rfl rfl rfl rfl (by decide) (by decide)
  ⟨by decide, h.1, h.2.1, h.2.2.2⟩

/-- C2: when the normalized sender is not in the authorized set and the list that
`GetIssueLabels` returns contains a label named as the target label, whatever
else is in the list and however often the target label occurs, `handle` returns nil
and makes no `AddLabel` call: it issues the ownership load, the changed-paths fetch
and the label read only, and the labels stay as they were. -/
theorem handle_noop_when_label_already_listed
    (target : String) (pre : PullRequestEvent) (w : World) (ro : RepoOwner)
    (changes : List PullRequestChange) (ls : List Label)
    (hro : w.loadRepoOwners (org pre) (repo pre) (baseRef pre) = .ok ro)
    (hch : w.pullRequestChanges (org pre) (repo pre) (number pre) = .ok changes)
    (hout : NormLogin pre.Sender.Name ∉ loadReviewers ro (filenamesOf changes))
    (hret : (World.githubClient.GetIssueLabels (org pre) (repo pre) (number pre)
      (afterChanges pre w)).1 = .ok ls)
    (hhas : labelPresent target ls) :
    (run target pre w).1 = none ∧
    (run target pre w).2.calls
      = w.calls ++ [Call.LoadRepoOwners (org pre) (repo pre) (baseRef pre),
          Call.GetPullRequestChanges (org pre) (repo pre) (number pre),
          Call.GetIssueLabels (org pre) (repo pre) (number pre)] ∧
    (run target pre w).2.calls.countP Call.isAddLabel = w.calls.countP Call.isAddLabel ∧
    (run target pre w).2.issueLabels = w.issueLabels := by
  have hget : w.getIssueLabelsErr (org pre) (repo pre) (number pre) = none := by
    cases h : w.getIssueLabelsErr (org pre) (repo pre) (number pre) with
    | none => rfl
    | some e =>
      simp [World.githubClient, afterChanges, afterLoad, World.record, h] at hret
  have hls : ls = w.issueLabels (org pre) (repo pre) (number pre) := by
    simp [World.githubClient, afterChanges, afterLoad, World.record, hget] at hret
    exact hret.symm
  subst hls
  rw [run_label_present target pre w ro changes hro hch hout hget hhas]
  refine ⟨rfl, ?_, ?_, rfl⟩
  · simp [afterLabels, afterChanges, afterLoad, World.record]
  · simp [afterLabels, afterChanges, afterLoad, World.record, List.countP_append,
      List.countP_cons, Call.isAddLabel]

/-- C2 at the test case of a pull request reopened by a non-owner with the label
already there. -/
theorem handle_noop_when_label_already_listed_witness :
    (run testLabel (testEvent PullRequestActionReopened "non-owner")
      (testWorld [testLabel] [])).1 = none ∧
    (run testLabel (testEvent PullRequestActionReopened "non-owner")
      (testWorld [testLabel] [])).2.calls
      = [Call.LoadRepoOwners "kubernetes" "kubernetes" "master",
          Call.GetPullRequestChanges "kubernetes" "kubernetes" 101,
          Call.GetIssueLabels "kubernetes" "kubernetes" 101] :=
  have h := handle_noop_when_label_already_listed testLabel
    (testEvent PullRequestActionReopened "non-owner") (testWorld [testLabel] [])
    createFakeOwnersClient [] [⟨testLabel⟩] rfl rfl (by decide) rfl (by decide)
  ⟨h.1, h.2.1⟩

/-- C3: when the normalized sender is in the authorized set and the label state
contains the target label, `handle` returns nil, issues only the ownership load and
the changed-paths fetch (no label read, no label mutation), and the labels after
the call are the labels before it: the target label is still attached. -/
theorem handle_leaves_label_of_authorized_sender
    (target : String) (pre : PullRequestEvent) (w : World) (ro : RepoOwner)
    (changes : List PullRequestChange)
    (hro : w.loadRepoOwners (org pre) (repo pre) (baseRef pre) = .ok ro)
    (hch : w.pullRequestChanges (org pre) (repo pre) (number pre) = .ok changes)
    (hin : NormLogin pre.Sender.Name ∈ loadReviewers ro (filenamesOf changes))
    (hhas : labelPresent target (w.issueLabels (org pre) (repo pre) (number pre))) :
    (run target pre w).1 = none ∧
    (run target pre w).2.calls
      = w.calls ++ [Call.LoadRepoOwners (org pre) (repo pre) (baseRef pre),
          Call.GetPullRequestChanges (org pre) (repo pre) (number pre)] ∧
    (run target pre w).2.calls.countP Call.isAddLabel = w.calls.countP Call.isAddLabel ∧
    (run target pre w).2.issueLabels = w.issueLabels ∧
    labelPresent target ((run target pre w).2.issueLabels (org pre) (repo pre) (number pre)) := by
  rw [run_authorized target pre w ro changes hro hch hin]
  refine ⟨rfl, ?_, ?_, rfl, hhas⟩
  · simp [afterChanges, afterLoad, World.record]
  · simp [afterChanges, afterLoad, World.record, List.countP_append, List.countP_cons,
      Call.isAddLabel]

/-- C3 at the test case of a new pull request by an owner with the label already
there. -/
theorem handle_leaves_label_of_authorized_sender_witness :
    NormLogin "user-1" ∈ loadReviewers createFakeOwnersClient ["doc/README.md"] ∧
    (run testLabel (testEvent PullRequestActionOpened "user-1")
      (testWorld [testLabel] ["doc/README.md"])).1 = none ∧
    (run testLabel (testEvent PullRequestActionOpened "user-1")
      (testWorld [testLabel] ["doc/README.md"])).2.issueLabels
      = (testWorld [testLabel] ["doc/README.md"]).issueLabels :=
  have h := handle_leaves_label_of_authorized_sender testLabel
    (testEvent PullRequestActionOpened "user-1") (testWorld [testLabel] ["doc/README.md"])
    createFakeOwnersClient [⟨"doc/README.md"⟩] rfl rfl (by decide) (by decide)
  ⟨by decide, h.1, h.2.2.2.1⟩

/-- C4: when the normalized sender is an approver or a reviewer of at least one
changed path, whoever owns the other changed paths, the sender is in the
authorized set and `handle` returns nil after the ownership load and the
changed-paths fetch: it makes neither a `GetIssueLabels` nor an `AddLabel` call, and
no label is added. -/
theorem handle_authorizes_owner_of_one_changed_path
    (target : String) (pre : PullRequestEvent) (w : World) (ro : RepoOwner)
    (changes : List PullRequestChange)
    (hro : w.loadRepoOwners (org pre) (repo pre) (baseRef pre) = .ok ro)
    (hch : w.pullRequestChanges (org pre) (repo pre) (number pre) = .ok changes)
    (hown : ∃ p ∈ filenamesOf changes,
      NormLogin pre.Sender.Name ∈ ro.Approvers p ∨ NormLogin pre.Sender.Name ∈ ro.Reviewers p) :
    NormLogin pre.Sender.Name ∈ loadReviewers ro (filenamesOf changes) ∧
    (run target pre w).1 = none ∧
    (run target pre w).2.calls
      = w.calls ++ [Call.LoadRepoOwners (org pre) (repo pre) (baseRef pre),
          Call.GetPullRequestChanges (org pre) (repo pre) (number pre)] ∧
    (run target pre w).2.calls.countP Call.isGetIssueLabels
      = w.calls.countP Call.isGetIssueLabels ∧
    (run target pre w).2.calls.countP Call.isAddLabel = w.calls.countP Call.isAddLabel ∧
    (run target pre w).2.issueLabels = w.issueLabels := by
  have hin := (mem_loadReviewers ro (filenamesOf changes) (NormLogin pre.Sender.Name)).mpr hown
  rw [run_authorized target pre w ro changes hro hch hin]
  refine ⟨hin, rfl, ?_, ?_, ?_, rfl⟩
  · simp [afterChanges, afterLoad, World.record]
  · simp [afterChanges, afterLoad, World.record, List.countP_append, List.countP_cons,
      Call.isGetIssueLabels]
  · simp [afterChanges, afterLoad, World.record, List.countP_append, List.countP_cons,
      Call.isAddLabel]

/-- C4 at a pull request of user-1 that changes doc/README.md, which user-1 owns,
together with a path nobody owns. -/
theorem handle_authorizes_owner_of_one_changed_path_witness :
    (run testLabel (testEvent PullRequestActionOpened "user-1")
      (testWorld [] ["random-path/README.md", "doc/README.md"])).1 = none ∧
    (run testLabel (testEvent PullRequestActionOpened "user-1")
      (testWorld [] ["random-path/README.md", "doc/README.md"])).2.calls
      = [Call.LoadRepoOwners "kubernetes" "kubernetes" "master",
          Call.GetPullRequestChanges "kubernetes" "kubernetes" 101] :=
  have h := handle_authorizes_owner_of_one_changed_path testLabel
    (testEvent PullRequestActionOpened "user-1")
    (testWorld [] ["random-path/README.md", "doc/README.md"])
    createFakeOwnersClient [⟨"random-path/README.md"⟩, ⟨"doc/README.md"⟩] rfl rfl
    ⟨"doc/README.md", by decide, Or.inl (by decide)⟩
  ⟨h.2.1, h.2.2.1⟩

/-- C5: `loadReviewers` is the union, over the changed paths, of the approvers and
the reviewers of the path: an identity is in the result if and only if it is an
approver or a reviewer of some changed path, and the result is empty when there
is no changed path. -/
theorem loadReviewers_eq_union (ro : RepoOwner) (filenames : List String) :
    loadReviewers ro filenames = authorizedSet ro filenames ∧
    (∀ x, x ∈ loadReviewers ro filenames
      ↔ ∃ p ∈ filenames, x ∈ ro.Approvers p ∨ x ∈ ro.Reviewers p) ∧
    loadReviewers ro [] = ∅ := by
  refine ⟨?_, fun x => mem_loadReviewers ro filenames x, rfl⟩
  ext x
  rw [mem_loadReviewers]
  simp [authorizedSet]

/-- C6, the claim as stated fails: at the test case of a new pull request by a
non-owner with no label, in a world whose label mutation fails, the sender is
unauthorized and the label is absent at the start, and yet two runs of `handle` in
succession make two `AddLabel` calls in total, the second run returns an error, and
the label is still absent. -/
theorem handle_twice_adds_twice_when_add_fails :
    NormLogin "non-owner" ∉ loadReviewers createFakeOwnersClient [] ∧
    ¬ labelPresent testLabel (addFails.issueLabels "kubernetes" "kubernetes" 101) ∧
    (run testLabel (testEvent PullRequestActionOpened "non-owner")
      (run testLabel (testEvent PullRequestActionOpened "non-owner") addFails).2).1
      = some "github failed to add the following label: community-contribution" ∧
    (run testLabel (testEvent PullRequestActionOpened "non-owner")
      (run testLabel (testEvent PullRequestActionOpened "non-owner")
        addFails).2).2.calls.countP Call.isAddLabel = 2 ∧
    ¬ labelPresent testLabel
      ((run testLabel (testEvent PullRequestActionOpened "non-owner")
        (run testLabel (testEvent PullRequestActionOpened "non-owner")
          addFails).2).2.issueLabels "kubernetes" "kubernetes" 101) := by
  have hout : NormLogin "non-owner" ∉ loadReviewers createFakeOwnersClient [] := by decide
  have habsent :
      ¬ labelPresent testLabel (addFails.issueLabels "kubernetes" "kubernetes" 101) := by
    decide
  refine ⟨hout, habsent, ?_⟩
  rw [run_add_failed testLabel (testEvent PullRequestActionOpened "non-owner") addFails
    createFakeOwnersClient [] "connection refused" rfl rfl hout rfl habsent rfl]
  rw [run_add_failed testLabel (testEvent PullRequestActionOpened "non-owner")
    (afterFailedAdd testLabel (testEvent PullRequestActionOpened "non-owner") addFails)
    createFakeOwnersClient [] "connection refused" rfl rfl hout rfl habsent rfl]
  refine ⟨by decide, ?_, habsent⟩
  simp [calls_afterFailedAdd, List.countP_append, List.countP_cons, Call.isAddLabel, addFails,
    testWorld, worldOf]

/-- C6, amended: two runs of `handle` in succession, on the same event of an
unauthorized sender, in a world whose reads succeed and whose label mutation
succeeds when it is called: both runs return nil, the labels after the second run
are the labels after the first, and the two runs make one `AddLabel` call in total
when the label was absent at the start and none when it was present. -/
theorem handle_twice_adds_once
    (target : String) (pre : PullRequestEvent) (w : World) (ro : RepoOwner)
    (changes : List PullRequestChange)
    (hro : w.loadRepoOwners (org pre) (repo pre) (baseRef pre) = .ok ro)
    (hch : w.pullRequestChanges (org pre) (repo pre) (number pre) = .ok changes)
    (hout : NormLogin pre.Sender.Name ∉ loadReviewers ro (filenamesOf changes))
    (hget : w.getIssueLabelsErr (org pre) (repo pre) (number pre) = none)
    (hadd : ¬ labelPresent target (w.issueLabels (org pre) (repo pre) (number pre)) →
      w.addLabelErr (org pre) (repo pre) (number pre) target = none) :
    (run target pre w).1 = none ∧
    (run target pre (run target pre w).2).1 = none ∧
    (run target pre (run target pre w).2).2.issueLabels = (run target pre w).2.issueLabels ∧
    (run target pre (run target pre w).2).2.calls.countP Call.isAddLabel
      = w.calls.countP Call.isAddLabel
        + (if labelPresent target (w.issueLabels (org pre) (repo pre) (number pre)) then 0
           else 1) := by
  by_cases hhas : labelPresent target (w.issueLabels (org pre) (repo pre) (number pre))
  · rw [run_label_present target pre w ro changes hro hch hout hget hhas]
    rw [run_label_present target pre (afterLabels pre w) ro changes hro hch hout hget hhas]
    refine ⟨rfl, rfl, rfl, ?_⟩
    simp [hhas, afterLabels, afterChanges, afterLoad, World.record, List.countP_append,
      List.countP_cons, Call.isAddLabel]
  · rw [run_add_ok target pre w ro changes hro hch hout hget hhas (hadd hhas)]
    rw [run_label_present target pre (afterAdd target pre w) ro changes hro hch hout hget
      (labelPresent_attach _ _ _ _ _)]
    refine ⟨rfl, rfl, rfl, ?_⟩
    simp [hhas, afterAdd, afterFailedAdd, afterLabels, afterChanges, afterLoad, World.record,
      List.countP_append, List.countP_cons, Call.isAddLabel]

/-- C6, amended, at the test case of a new pull request by a non-owner with no
label: the second run adds nothing. -/
theorem handle_twice_adds_once_witness :
    (run testLabel (testEvent PullRequestActionOpened "non-owner")
      (run testLabel (testEvent PullRequestActionOpened "non-owner")
        (testWorld [] [])).2).1 = none ∧
    (run testLabel (testEvent PullRequestActionOpened "non-owner")
      (run testLabel (testEvent PullRequestActionOpened "non-owner")
        (testWorld [] [])).2).2.calls.countP Call.isAddLabel = 1 :=
  have h := handle_twice_adds_once testLabel (testEvent PullRequestActionOpened "non-owner")
    (testWorld [] []) createFakeOwnersClient [] rfl rfl (by decide) rfl (fun _ => rfl)
  ⟨h.2.1, h.2.2.2⟩

/-- C7: for an event whose action is none of opened, reopened and synchronize,
`handlePullRequest` returns nil and leaves the world as it found it, whatever the
world and the agent are: no collaborator is called; for the three qualifying
actions it returns what `handle` returns. -/
theorem handlePullRequest_filters_actions {σ : Type} (target : String) (pc : Agent σ)
    (pre : PullRequestEvent) (s : σ) :
    (pre.Action ≠ PullRequestActionOpened ∧ pre.Action ≠ PullRequestActionReopened ∧
        pre.Action ≠ PullRequestActionSynchronize →
      handlePullRequest target pc pre s = (none, s)) ∧
    (pre.Action = PullRequestActionOpened ∨ pre.Action = PullRequestActionReopened ∨
        pre.Action = PullRequestActionSynchronize →
      handlePullRequest target pc pre s
        = handle target pc.GitHubClient pc.OwnersClient pre s) := by
  constructor
  · intro h
    simp [handlePullRequest, h]
  · intro h
    have hn : ¬ (pre.Action ≠ PullRequestActionOpened ∧
        pre.Action ≠ PullRequestActionReopened ∧
        pre.Action ≠ PullRequestActionSynchronize) := by
      rintro ⟨h1, h2, h3⟩
      rcases h with h | h | h
      · exact h1 h
      · exact h2 h
      · exact h3 h
    unfold handlePullRequest
    rw [if_neg hn]

/-- C7 at a review-requested event of a non-owner, where no call is recorded and
the labels stay, and at the same event with the action opened, where
`handlePullRequest` does what `handle` does. -/
theorem handlePullRequest_filters_actions_witness :
    (handlePullRequest testLabel World.agent
      (testEvent PullRequestActionReviewRequested "non-owner") (testWorld [] [])).1 = none ∧
    (handlePullRequest testLabel World.agent
      (testEvent PullRequestActionReviewRequested "non-owner") (testWorld [] [])).2.calls = [] ∧
    handlePullRequest testLabel World.agent
      (testEvent PullRequestActionOpened "non-owner") (testWorld [] [])
      = run testLabel (testEvent PullRequestActionOpened "non-owner") (testWorld [] []) :=
  have h1 := (handlePullRequest_filters_actions testLabel World.agent
    (testEvent PullRequestActionReviewRequested "non-owner") (testWorld [] [])).1 (by decide)
  have h2 := (handlePullRequest_filters_actions testLabel World.agent
    (testEvent PullRequestActionOpened "non-owner") (testWorld [] [])).2 (Or.inl rfl)
  ⟨by rw [h1], by rw [h1]; rfl, h2⟩

/-- C8, the claim as stated fails: at the test case of a new pull request by an
owner with the label already there, `handle` returns nil and the target label is
attached afterwards although the sender is in the authorized set. -/
theorem label_iff_unauthorized_fails :
    (run testLabel (testEvent PullRequestActionOpened "user-1")
      (testWorld [testLabel] ["doc/README.md"])).1 = none ∧
    ¬ (labelPresent testLabel
        ((run testLabel (testEvent PullRequestActionOpened "user-1")
          (testWorld [testLabel] ["doc/README.md"])).2.issueLabels
            "kubernetes" "kubernetes" 101)
      ↔ NormLogin "user-1" ∉ loadReviewers createFakeOwnersClient ["doc/README.md"]) := by
  have hin : NormLogin "user-1" ∈ loadReviewers createFakeOwnersClient ["doc/README.md"] := by
    decide
  rw [run_authorized testLabel (testEvent PullRequestActionOpened "user-1")
    (testWorld [testLabel] ["doc/README.md"]) createFakeOwnersClient [⟨"doc/README.md"⟩]
    rfl rfl hin]
  refine ⟨rfl, ?_⟩
  intro h
  exact h.mp (by decide) hin

/-- C8, amended: whenever `handle` returns nil, the target label is attached
afterwards if and only if the normalized sender is absent from the authorized set
or the label was attached before the call. -/
theorem label_after_iff_unauthorized_or_before
    (target : String) (pre : PullRequestEvent) (w : World) (ro : RepoOwner)
    (changes : List PullRequestChange)
    (hro : w.loadRepoOwners (org pre) (repo pre) (baseRef pre) = .ok ro)
    (hch : w.pullRequestChanges (org pre) (repo pre) (number pre) = .ok changes)
    (hnil : (run target pre w).1 = none) :
    labelPresent target ((run target pre w).2.issueLabels (org pre) (repo pre) (number pre))
      ↔ (NormLogin pre.Sender.Name ∉ loadReviewers ro (filenamesOf changes)
          ∨ labelPresent target (w.issueLabels (org pre) (repo pre) (number pre))) := by
  by_cases hin : NormLogin pre.Sender.Name ∈ loadReviewers ro (filenamesOf changes)
  · rw [run_authorized target pre w ro changes hro hch hin]
    show labelPresent target (w.issueLabels (org pre) (repo pre) (number pre)) ↔ _
    simp [hin]
  · cases hget : w.getIssueLabelsErr (org pre) (repo pre) (number pre) with
    | some e =>
      rw [run_labels_failed target pre w ro changes e hro hch hin hget] at hnil
      simp at hnil
    | none =>
      by_cases hhas : labelPresent target (w.issueLabels (org pre) (repo pre) (number pre))
      · rw [run_label_present target pre w ro changes hro hch hin hget hhas]
        show labelPresent target (w.issueLabels (org pre) (repo pre) (number pre)) ↔ _
        simp [hhas]
      · cases hadd : w.addLabelErr (org pre) (repo pre) (number pre) target with
        | some e =>
          rw [run_add_failed target pre w ro changes e hro hch hin hget hhas hadd] at hnil
          simp at hnil
        | none =>
          rw [run_add_ok target pre w ro changes hro hch hin hget hhas hadd]
          have hp := labelPresent_attach w.issueLabels (org pre) (repo pre) (number pre) target
          constructor
          · intro _
            exact Or.inl hin
          · intro _
            exact hp

/-- C8, amended, at the test case of an owner of doc/README.md who changes only
random-path/README.md: the label is attached after a run that returns nil. -/
theorem label_after_iff_unauthorized_or_before_witness :
    (run testLabel (testEvent PullRequestActionOpened "user-1")
      (testWorld [] ["random-path/README.md"])).1 = none ∧
    (labelPresent testLabel
        ((run testLabel (testEvent PullRequestActionOpened "user-1")
          (testWorld [] ["random-path/README.md"])).2.issueLabels
            "kubernetes" "kubernetes" 101)
      ↔ (NormLogin "user-1" ∉ loadReviewers createFakeOwnersClient ["random-path/README.md"]
          ∨ labelPresent testLabel [])) :=
  have hnil : (run testLabel (testEvent PullRequestActionOpened "user-1")
      (testWorld [] ["random-path/README.md"])).1 = none := by
    rw [run_add_ok testLabel (testEvent PullRequestActionOpened "user-1")
      (testWorld [] ["random-path/README.md"]) createFakeOwnersClient
      [⟨"random-path/README.md"⟩] rfl rfl (by decide) rfl (by decide) rfl]
  ⟨hnil, label_after_iff_unauthorized_or_before testLabel
    (testEvent PullRequestActionOpened "user-1") (testWorld [] ["random-path/README.md"])
    createFakeOwnersClient [⟨"random-path/README.md"⟩] rfl rfl hnil⟩

/-- C9: when the pull request has no changed path, the authorized set is empty
whatever the ownership snapshot holds, so every sender is judged unauthorized;
when the label read succeeds, and the label mutation too if it is called, `handle`
returns nil and the target label is present afterwards: it is added by one
`AddLabel` call when it was absent. -/
theorem handle_labels_when_no_changed_path
    (target : String) (pre : PullRequestEvent) (w : World) (ro : RepoOwner)
    (hro : w.loadRepoOwners (org pre) (repo pre) (baseRef pre) = .ok ro)
    (hch : w.pullRequestChanges (org pre) (repo pre) (number pre) = .ok [])
    (hget : w.getIssueLabelsErr (org pre) (repo pre) (number pre) = none)
    (hadd : ¬ labelPresent target (w.issueLabels (org pre) (repo pre) (number pre)) →
      w.addLabelErr (org pre) (repo pre) (number pre) target = none) :
    loadReviewers ro (filenamesOf []) = ∅ ∧
    NormLogin pre.Sender.Name ∉ loadReviewers ro (filenamesOf []) ∧
    (run target pre w).1 = none ∧
    labelPresent target ((run target pre w).2.issueLabels (org pre) (repo pre) (number pre)) ∧
    (¬ labelPresent target (w.issueLabels (org pre) (repo pre) (number pre)) →
      (run target pre w).2.calls
        = w.calls ++ [Call.LoadRepoOwners (org pre) (repo pre) (baseRef pre),
            Call.GetPullRequestChanges (org pre) (repo pre) (number pre),
            Call.GetIssueLabels (org pre) (repo pre) (number pre),
            Call.AddLabel (org pre) (repo pre) (number pre) target]) := by
  have hempty : loadReviewers ro (filenamesOf []) = ∅ := rfl
  have hout : NormLogin pre.Sender.Name ∉ loadReviewers ro (filenamesOf []) := by
    rw [hempty]
    exact Finset.not_mem_empty _
  refine ⟨hempty, hout, ?_⟩
  by_cases hhas : labelPresent target (w.issueLabels (org pre) (repo pre) (number pre))
  · rw [run_label_present target pre w ro [] hro hch hout hget hhas]
    exact ⟨rfl, hhas, fun h => absurd hhas h⟩
  · rw [run_add_ok target pre w ro [] hro hch hout hget hhas (hadd hhas)]
    refine ⟨rfl, labelPresent_attach _ _ _ _ _, fun _ => ?_⟩
    simp [afterAdd, afterFailedAdd, afterLabels, afterChanges, afterLoad, World.record]

/-- C9 at a pull request without changed files whose sender, user-1, is an
approver and a reviewer of doc/README.md: the label is added. -/
theorem handle_labels_when_no_changed_path_witness :
    "user-1" ∈ createFakeOwnersClient.Approvers "doc/README.md" ∧
    (run testLabel (testEvent PullRequestActionOpened "user-1") (testWorld [] [])).1 = none ∧
    labelPresent testLabel
      ((run testLabel (testEvent PullRequestActionOpened "user-1")
        (testWorld [] [])).2.issueLabels "kubernetes" "kubernetes" 101) :=
  have h := handle_labels_when_no_changed_path testLabel
    (testEvent PullRequestActionOpened "user-1") (testWorld [] []) createFakeOwnersClient
    rfl rfl rfl (fun _ => rfl)
  ⟨by decide, h.2.2.1, h.2.2.2.1⟩

/-! ## The comparison of identities -/

/-- C10, the claim as stated fails: with owners data that spells the approver of
doc/README.md as User-1, the authorized set contains an identity equal to the
sender user-1 up to letter case, and yet `handle` judges the sender unauthorized
and adds the label. -/
theorem case_insensitive_match_fails :
    "User-1" ∈ loadReviewers capitalOwners ["doc/README.md"] ∧
    EqUpToCase "User-1" "user-1" ∧
    NormLogin "user-1" ∉ loadReviewers capitalOwners ["doc/README.md"] ∧
    (run testLabel (testEvent PullRequestActionOpened "user-1")
      (worldOf capitalOwners [] ["doc/README.md"])).2.calls
      = [Call.LoadRepoOwners "kubernetes" "kubernetes" "master",
          Call.GetPullRequestChanges "kubernetes" "kubernetes" 101,
          Call.GetIssueLabels "kubernetes" "kubernetes" 101,
          Call.AddLabel "kubernetes" "kubernetes" 101 testLabel] := by
  refine ⟨by decide, by decide, by decide, ?_⟩
  rw [run_add_ok testLabel (testEvent PullRequestActionOpened "user-1")
    (worldOf capitalOwners [] ["doc/README.md"]) capitalOwners [⟨"doc/README.md"⟩]
    rfl rfl (by decide) rfl (by decide) rfl]
  rfl

/-- C10, amended: `handle` lower-cases the name of the sender only and looks the
result up in the authorized set as it is.  The sender is judged authorized, so that
`handle` returns nil without a label call, whenever the set contains an identity in
lower-cased form that equals the sender up to letter case; and two senders that
differ only in letter case get the same run, whatever the collaborators are. -/
theorem handle_normalizes_sender_only
    (target : String) (pre : PullRequestEvent) (w : World) (ro : RepoOwner)
    (changes : List PullRequestChange)
    (hro : w.loadRepoOwners (org pre) (repo pre) (baseRef pre) = .ok ro)
    (hch : w.pullRequestChanges (org pre) (repo pre) (number pre) = .ok changes) :
    (∀ x ∈ loadReviewers ro (filenamesOf changes), NormLogin x = x →
      EqUpToCase x pre.Sender.Name →
        NormLogin pre.Sender.Name ∈ loadReviewers ro (filenamesOf changes) ∧
        run target pre w = (none, afterChanges pre w)) ∧
    (∀ (σ : Type) (gc : githubClient σ) (oc : Interface σ) (s : σ) (name : String),
      EqUpToCase pre.Sender.Name name →
        handle target gc oc (withSenderName pre name) s = handle target gc oc pre s) := by
  constructor
  · intro x hx hnorm heq
    have hin : NormLogin pre.Sender.Name ∈ loadReviewers ro (filenamesOf changes) := by
      unfold EqUpToCase at heq
      rw [← heq, hnorm]
      exact hx
    exact ⟨hin, run_authorized target pre w ro changes hro hch hin⟩
  · intro σ gc oc s name heq
    unfold EqUpToCase at heq
    simp only [handle, withSenderName, heq]

/-- C10, amended, at the fake owners and the sender USER-1, who is judged
authorized for doc/README.md as user-1 is, and whose run is the run of user-1. -/
theorem handle_normalizes_sender_only_witness :
    run testLabel (testEvent PullRequestActionOpened "USER-1")
        (testWorld [] ["doc/README.md"])
      = (none, afterChanges (testEvent PullRequestActionOpened "USER-1")
          (testWorld [] ["doc/README.md"])) ∧
    run testLabel (withSenderName (testEvent PullRequestActionOpened "USER-1") "user-1")
        (testWorld [] ["doc/README.md"])
      = run testLabel (testEvent PullRequestActionOpened "USER-1")
          (testWorld [] ["doc/README.md"]) :=
  have h := handle_normalizes_sender_only testLabel
    (testEvent PullRequestActionOpened "USER-1") (testWorld [] ["doc/README.md"])
    createFakeOwnersClient [⟨"doc/README.md"⟩] rfl rfl
  ⟨(h.1 "user-1" (by decide) (by decide) (by decide)).2,
    h.2 World World.githubClient World.ownersClient (testWorld [] ["doc/README.md"]) "user-1"
      (by decide)⟩

/-! ## Failures -/

/-- C11: when the ownership load fails, or the changed-paths fetch fails, or the
label read fails (it is made for an unauthorized sender), `handle` returns a
non-nil error, the failing call is the last call it issues, it makes no `AddLabel`
call, and the labels of every pull request are left exactly as they were. -/
theorem handle_failure_is_atomic (target : String) (pre : PullRequestEvent) (w : World) :
    (∀ e, w.loadRepoOwners (org pre) (repo pre) (baseRef pre) = .error e →
      (run target pre w).1 ≠ none ∧
      (run target pre w).2.calls
        = w.calls ++ [Call.LoadRepoOwners (org pre) (repo pre) (baseRef pre)] ∧
      (run target pre w).2.calls.countP Call.isAddLabel = w.calls.countP Call.isAddLabel ∧
      (run target pre w).2.issueLabels = w.issueLabels) ∧
    (∀ ro e, w.loadRepoOwners (org pre) (repo pre) (baseRef pre) = .ok ro →
      w.pullRequestChanges (org pre) (repo pre) (number pre) = .error e →
      (run target pre w).1 ≠ none ∧
      (run target pre w).2.calls
        = w.calls ++ [Call.LoadRepoOwners (org pre) (repo pre) (baseRef pre),
            Call.GetPullRequestChanges (org pre) (repo pre) (number pre)] ∧
      (run target pre w).2.calls.countP Call.isAddLabel = w.calls.countP Call.isAddLabel ∧
      (run target pre w).2.issueLabels = w.issueLabels) ∧
    (∀ ro changes e, w.loadRepoOwners (org pre) (repo pre) (baseRef pre) = .ok ro →
      w.pullRequestChanges (org pre) (repo pre) (number pre) = .ok changes →
      NormLogin pre.Sender.Name ∉ loadReviewers ro (filenamesOf changes) →
      w.getIssueLabelsErr (org pre) (repo pre) (number pre) = some e →
      (run target pre w).1 ≠ none ∧
      (run target pre w).2.calls
        = w.calls ++ [Call.LoadRepoOwners (org pre) (repo pre) (baseRef pre),
            Call.GetPullRequestChanges (org pre) (repo pre) (number pre),
            Call.GetIssueLabels (org pre) (repo pre) (number pre)] ∧
      (run target pre w).2.calls.countP Call.isAddLabel = w.calls.countP Call.isAddLabel ∧
      (run target pre w).2.issueLabels = w.issueLabels) := by
  refine ⟨?_, ?_, ?_⟩
  · intro e hro
    rw [run_load_failed target pre w e hro]
    refine ⟨by simp, calls_afterLoad pre w, ?_, rfl⟩
    simp [calls_afterLoad, List.countP_append, List.countP_cons, Call.isAddLabel]
  · intro ro e hro hch
    rw [run_changes_failed target pre w ro e hro hch]
    refine ⟨by simp, calls_afterChanges pre w, ?_, rfl⟩
    simp [calls_afterChanges, List.countP_append, List.countP_cons, Call.isAddLabel]
  · intro ro changes e hro hch hout hget
    rw [run_labels_failed target pre w ro changes e hro hch hout hget]
    refine ⟨by simp, calls_afterLabels pre w, ?_, rfl⟩
    simp [calls_afterLabels, List.countP_append, List.countP_cons, Call.isAddLabel]

/-- C11 at the test case of a new pull request by a non-owner, with each of the
three reads failing in turn: the error is non-nil and the run stops at the failing
call. -/
theorem handle_failure_is_atomic_witness :
    ((run testLabel (testEvent PullRequestActionOpened "non-owner") loadFails).1 ≠ none ∧
      (run testLabel (testEvent PullRequestActionOpened "non-owner") loadFails).2.calls
        = [Call.LoadRepoOwners "kubernetes" "kubernetes" "master"]) ∧
    ((run testLabel (testEvent PullRequestActionOpened "non-owner") changesFail).1 ≠ none ∧
      (run testLabel (testEvent PullRequestActionOpened "non-owner") changesFail).2.calls
        = [Call.LoadRepoOwners "kubernetes" "kubernetes" "master",
            Call.GetPullRequestChanges "kubernetes" "kubernetes" 101]) ∧
    ((run testLabel (testEvent PullRequestActionOpened "non-owner") labelsFail).1 ≠ none ∧
      (run testLabel (testEvent PullRequestActionOpened "non-owner") labelsFail).2.calls
        = [Call.LoadRepoOwners "kubernetes" "kubernetes" "master",
            Call.GetPullRequestChanges "kubernetes" "kubernetes" 101,
            Call.GetIssueLabels "kubernetes" "kubernetes" 101] ∧
      (run testLabel (testEvent PullRequestActionOpened "non-owner") labelsFail).2.issueLabels
        = labelsFail.issueLabels) :=
  have h1 := (handle_failure_is_atomic testLabel
    (testEvent PullRequestActionOpened "non-owner") loadFails).1 "connection refused" rfl
  have h2 := (handle_failure_is_atomic testLabel
    (testEvent PullRequestActionOpened "non-owner") changesFail).2.1
      createFakeOwnersClient "connection refused" rfl rfl
  have h3 := (handle_failure_is_atomic testLabel
    (testEvent PullRequestActionOpened "non-owner") labelsFail).2.2
      createFakeOwnersClient [] "connection refused" rfl rfl (by decide) rfl
  ⟨⟨h1.1, h1.2.1⟩, ⟨h2.1, h2.2.1⟩, ⟨h3.1, h3.2.1, h3.2.2.2⟩⟩

/-- C12: `handle` returns a non-nil error if and only if one of the collaborator
calls it issued failed: no failure is swallowed, a failing `AddLabel` included, and
`handle` does not fail when every call it issued succeeded. -/
theorem handle_fails_iff_issued_call_fails (target : String) (pre : PullRequestEvent)
    (w : World) :
    (run target pre w).1 ≠ none ↔ ∃ c ∈ issued target pre w, c.failsIn w = true := by
  unfold issued
  refine run_cases target pre w
    (fun r => r.1 ≠ none ↔ ∃ c ∈ r.2.calls.drop w.calls.length, c.failsIn w = true)
    ?_ ?_ ?_ ?_ ?_ ?_ ?_
  · intro e hro
    simp [calls_afterLoad, Call.failsIn, hro]
  · intro ro e hro hch
    simp [calls_afterChanges, Call.failsIn, hro, hch]
  · intro ro changes hro hch _
    simp [calls_afterChanges, Call.failsIn, hro, hch]
  · intro ro changes e hro hch _ hget
    simp [calls_afterLabels, Call.failsIn, hro, hch, hget]
  · intro ro changes hro hch _ hget _
    simp [calls_afterLabels, Call.failsIn, hro, hch, hget]
  · intro ro changes e hro hch _ hget _ hadd
    simp [calls_afterFailedAdd, Call.failsIn, hro, hch, hget, hadd]
  · intro ro changes hro hch _ hget _ hadd
    simp [calls_afterAdd, Call.failsIn, hro, hch, hget, hadd]

/-! ## The messages of the errors -/

theorem mentions_right (a b : String) : mentions (a ++ b) b :=
  ⟨a.data, [], by simp [String.data_append]⟩

theorem mentions_left (a b : String) : mentions (a ++ b) a :=
  ⟨[], b.data, by simp [String.data_append]⟩

theorem mentions_append (a b t : String) (h : mentions a t) : mentions (a ++ b) t := by
  obtain ⟨u, v, huv⟩ := h
  exact ⟨u, v ++ b.data, by simp [String.data_append, ← huv]⟩

/-- C13, the claim as stated fails: at the test case of a new pull request by a
non-owner on kubernetes/kubernetes number 101, with the ownership load failing
with the message connection refused, the error of `handle` is that message behind
the words error loading RepoOwners, and contains neither the org, nor the repo,
nor the number. -/
theorem load_error_lacks_context :
    (run testLabel (testEvent PullRequestActionOpened "non-owner") loadFails).1
      = some "error loading RepoOwners: connection refused" ∧
    org (testEvent PullRequestActionOpened "non-owner") = "kubernetes" ∧
    repo (testEvent PullRequestActionOpened "non-owner") = "kubernetes" ∧
    toString (number (testEvent PullRequestActionOpened "non-owner")) = "101" ∧
    ¬ mentions "error loading RepoOwners: connection refused" "kubernetes" ∧
    ¬ mentions "error loading RepoOwners: connection refused" "101" := by
  refine ⟨?_, rfl, rfl, by decide, by decide, by decide⟩
  rw [run_load_failed testLabel (testEvent PullRequestActionOpened "non-owner") loadFails
    "connection refused" rfl]
  decide

/-- C13, amended: the error `handle` returns for a failed changed-paths fetch and
for a failed label read names the step and contains the org, the repo and the
number of the pull request; the error it returns for a failed ownership load is
the error of the loader behind the words error loading RepoOwners, to which
`handle` adds no org, repo or number. -/
theorem handle_errors_carry_context (target : String) (pre : PullRequestEvent) (w : World) :
    (∀ e, w.loadRepoOwners (org pre) (repo pre) (baseRef pre) = .error e →
      (run target pre w).1 = some ("error loading RepoOwners: " ++ e)) ∧
    (∀ ro e, w.loadRepoOwners (org pre) (repo pre) (baseRef pre) = .ok ro →
      w.pullRequestChanges (org pre) (repo pre) (number pre) = .error e →
      ∃ msg, (run target pre w).1 = some msg ∧
        mentions msg " failed to get PR changes for " ∧
        mentions msg (org pre) ∧ mentions msg (repo pre) ∧
        mentions msg (toString (number pre))) ∧
    (∀ ro changes e, w.loadRepoOwners (org pre) (repo pre) (baseRef pre) = .ok ro →
      w.pullRequestChanges (org pre) (repo pre) (number pre) = .ok changes →
      NormLogin pre.Sender.Name ∉ loadReviewers ro (filenamesOf changes) →
      w.getIssueLabelsErr (org pre) (repo pre) (number pre) = some e →
      ∃ msg, (run target pre w).1 = some msg ∧
        mentions msg "could not get labels for PR " ∧
        mentions msg (org pre) ∧ mentions msg (repo pre) ∧
        mentions msg (toString (number pre)) ∧ mentions msg e) := by
  refine ⟨?_, ?_, ?_⟩
  · intro e hro
    rw [run_load_failed target pre w e hro]
  · intro ro e hro hch
    rw [run_changes_failed target pre w ro e hro hch]
    refine ⟨_, rfl, ?_, ?_, ?_, ?_⟩
    · exact mentions_append _ _ _ (mentions_append _ _ _ (mentions_append _ _ _
        (mentions_append _ _ _ (mentions_append _ _ _ (mentions_right _ _)))))
    · exact mentions_append _ _ _ (mentions_append _ _ _ (mentions_append _ _ _
        (mentions_append _ _ _ (mentions_right _ _))))
    · exact mentions_append _ _ _ (mentions_append _ _ _ (mentions_right _ _))
    · exact mentions_right _ _
  · intro ro changes e hro hch hout hget
    rw [run_labels_failed target pre w ro changes e hro hch hout hget]
    refine ⟨_, rfl, ?_, ?_, ?_, ?_, ?_⟩
    · exact mentions_append _ _ _ (mentions_append _ _ _ (mentions_append _ _ _
        (mentions_append _ _ _ (mentions_append _ _ _ (mentions_append _ _ _
        (mentions_append _ _ _ (mentions_append _ _ _ (mentions_left _ _))))))))
    · exact mentions_append _ _ _ (mentions_append _ _ _ (mentions_append _ _ _
        (mentions_append _ _ _ (mentions_append _ _ _ (mentions_append _ _ _
        (mentions_append _ _ _ (mentions_append _ _ _ (mentions_right _ _))))))))
    · exact mentions_append _ _ _ (mentions_append _ _ _ (mentions_append _ _ _
        (mentions_append _ _ _ (mentions_append _ _ _ (mentions_append _ _ _
        (mentions_right _ _))))))
    · exact mentions_append _ _ _ (mentions_append _ _ _ (mentions_append _ _ _
        (mentions_append _ _ _ (mentions_right _ _))))
    · exact mentions_right _ _

/-- C13, amended, at the test case of a new pull request by a non-owner with the
changed-paths fetch failing, and with the label read failing. -/
theorem handle_errors_carry_context_witness :
    (∃ msg, (run testLabel (testEvent PullRequestActionOpened "non-owner") changesFail).1
        = some msg ∧
      mentions msg " failed to get PR changes for " ∧
      mentions msg "kubernetes" ∧ mentions msg "kubernetes" ∧ mentions msg "101") ∧
    (∃ msg, (run testLabel (testEvent PullRequestActionOpened "non-owner") labelsFail).1
        = some msg ∧
      mentions msg "could not get labels for PR " ∧
      mentions msg "kubernetes" ∧ mentions msg "kubernetes" ∧ mentions msg "101" ∧
      mentions msg "connection refused") :=
  ⟨(handle_errors_carry_context testLabel
      (testEvent PullRequestActionOpened "non-owner") changesFail).2.1
        createFakeOwnersClient "connection refused" rfl rfl,
    (handle_errors_carry_context testLabel
      (testEvent PullRequestActionOpened "non-owner") labelsFail).2.2
        createFakeOwnersClient [] "connection refused" rfl rfl (by decide) rfl⟩

/-! ## The frame of a run -/

theorem mem_attach (labels : String → String → Int → List Label) (o r o1 r1 : String)
    (n n1 : Int) (t : String) (l : Label) :
    l ∈ attach labels o r n t o1 r1 n1
      ↔ l ∈ labels o1 r1 n1 ∨ (l = ⟨t⟩ ∧ o1 = o ∧ r1 = r ∧ n1 = n) := by
  unfold attach
  split
  · rename_i h
    simp [h]
  · rename_i h
    constructor
    · intro hl
      exact Or.inl hl
    · rintro (hl | ⟨_, h1, h2, h3⟩)
      · exact hl
      · exact absurd ⟨h1, h2, h3⟩ h

theorem filter_attach (labels : String → String → Int → List Label) (o r o1 r1 : String)
    (n n1 : Int) (t : String) :
    (attach labels o r n t o1 r1 n1).filter (fun l => decide (l.Name ≠ t))
      = (labels o1 r1 n1).filter (fun l => decide (l.Name ≠ t)) := by
  unfold attach
  split
  · simp [List.filter_append]
  · rfl

/-- C14: the label state is append-only under `handle`.  Every label attached to
any pull request before a run is attached after it; a label attached after the run
and not before is the target label, on the pull request of the event; the run
issues at most one `AddLabel` call; and the labels other than the target label are
the same lists before and after. -/
theorem handle_only_appends_target (target : String) (pre : PullRequestEvent) (w : World) :
    (∀ o r n l, l ∈ w.issueLabels o r n → l ∈ (run target pre w).2.issueLabels o r n) ∧
    (∀ o r n l, l ∈ (run target pre w).2.issueLabels o r n → l ∉ w.issueLabels o r n →
      l.Name = target ∧ o = org pre ∧ r = repo pre ∧ n = number pre) ∧
    (issued target pre w).countP Call.isAddLabel ≤ 1 ∧
    (∀ o r n, ((run target pre w).2.issueLabels o r n).filter (fun l => decide (l.Name ≠ target))
      = (w.issueLabels o r n).filter (fun l => decide (l.Name ≠ target))) := by
  unfold issued
  have same : ∀ (r : Option error) (w2 : World) (extra : List Call),
      w2.issueLabels = w.issueLabels → w2.calls = w.calls ++ extra →
      extra.countP Call.isAddLabel ≤ 1 →
      (∀ o r n l, l ∈ w.issueLabels o r n → l ∈ (r, w2).2.issueLabels o r n) ∧
      (∀ o r n l, l ∈ (r, w2).2.issueLabels o r n → l ∉ w.issueLabels o r n →
        l.Name = target ∧ o = org pre ∧ r = repo pre ∧ n = number pre) ∧
      ((r, w2).2.calls.drop w.calls.length).countP Call.isAddLabel ≤ 1 ∧
      (∀ o r n, ((r, w2).2.issueLabels o r n).filter (fun l => decide (l.Name ≠ target))
        = (w.issueLabels o r n).filter (fun l => decide (l.Name ≠ target))) := by
    intro r w2 extra hl hc hcount
    simp only [hl, hc, List.drop_left]
    exact ⟨fun _ _ _ _ h => h, fun _ _ _ _ h hn => absurd h hn, hcount, fun _ _ _ => trivial⟩
  refine run_cases target pre w
    (fun res =>
      (∀ o r n l, l ∈ w.issueLabels o r n → l ∈ res.2.issueLabels o r n) ∧
      (∀ o r n l, l ∈ res.2.issueLabels o r n → l ∉ w.issueLabels o r n →
        l.Name = target ∧ o = org pre ∧ r = repo pre ∧ n = number pre) ∧
      (res.2.calls.drop w.calls.length).countP Call.isAddLabel ≤ 1 ∧
      (∀ o r n, (res.2.issueLabels o r n).filter (fun l => decide (l.Name ≠ target))
        = (w.issueLabels o r n).filter (fun l => decide (l.Name ≠ target))))
    ?_ ?_ ?_ ?_ ?_ ?_ ?_
  · intro e _
    exact same _ _ _ rfl (calls_afterLoad pre w) (by simp [Call.isAddLabel])
  · intro ro e _ _
    exact same _ _ _ rfl (calls_afterChanges pre w) (by simp [Call.isAddLabel])
  · intro ro changes _ _ _
    exact same _ _ _ rfl (calls_afterChanges pre w) (by simp [Call.isAddLabel])
  · intro ro changes e _ _ _ _
    exact same _ _ _ rfl (calls_afterLabels pre w) (by simp [Call.isAddLabel])
  · intro ro changes _ _ _ _ _
    exact same _ _ _ rfl (calls_afterLabels pre w) (by simp [Call.isAddLabel])
  · intro ro changes e _ _ _ _ _ _
    exact same _ _ _ rfl (calls_afterFailedAdd target pre w) (by simp [Call.isAddLabel])
  · intro ro changes _ _ _ _ _ _
    refine ⟨?_, ?_, ?_, ?_⟩
    · intro o r n l hl
      exact (mem_attach _ _ _ _ _ _ _ _ _).mpr (Or.inl hl)
    · intro o r n l hl hn
      rcases (mem_attach _ _ _ _ _ _ _ _ _).mp hl with h | ⟨h, h1, h2, h3⟩
      · exact absurd h hn
      · exact ⟨by rw [h], h1, h2, h3⟩
    · simp [calls_afterAdd, Call.isAddLabel]
    · intro o r n
      exact filter_attach _ _ _ _ _ _ _ _

/-- C15: `handle` does not read the action of its event: for every collaborators
and world, the run on an event and the run on the same event with another action
are the same, calls and result.  In particular, on the review-requested event of a
non-owner on a pull request without the label, `handle` adds the label, while
`handlePullRequest`, which holds the filter, makes no call. -/
theorem handle_ignores_action (target : String) {σ : Type} (gc : githubClient σ)
    (oc : Interface σ) (pre : PullRequestEvent) (action : PullRequestEventAction) (s : σ) :
    handle target gc oc (withAction pre action) s = handle target gc oc pre s ∧
    (run testLabel (testEvent PullRequestActionReviewRequested "non-owner")
      (testWorld [] [])).1 = none ∧
    (run testLabel (testEvent PullRequestActionReviewRequested "non-owner")
      (testWorld [] [])).2.calls
      = [Call.LoadRepoOwners "kubernetes" "kubernetes" "master",
          Call.GetPullRequestChanges "kubernetes" "kubernetes" 101,
          Call.GetIssueLabels "kubernetes" "kubernetes" 101,
          Call.AddLabel "kubernetes" "kubernetes" 101 testLabel] ∧
    labelPresent testLabel
      ((run testLabel (testEvent PullRequestActionReviewRequested "non-owner")
        (testWorld [] [])).2.issueLabels "kubernetes" "kubernetes" 101) ∧
    (handlePullRequest testLabel World.agent
      (testEvent PullRequestActionReviewRequested "non-owner") (testWorld [] [])).2.calls
      = [] := by
  refine ⟨rfl, ?_, ?_, ?_, ?_⟩
  · rw [run_add_ok testLabel (testEvent PullRequestActionReviewRequested "non-owner")
      (testWorld [] []) createFakeOwnersClient [] rfl rfl (by decide) rfl (by decide) rfl]
  · rw [run_add_ok testLabel (testEvent PullRequestActionReviewRequested "non-owner")
      (testWorld [] []) createFakeOwnersClient [] rfl rfl (by decide) rfl (by decide) rfl]
    rfl
  · rw [run_add_ok testLabel (testEvent PullRequestActionReviewRequested "non-owner")
      (testWorld [] []) createFakeOwnersClient [] rfl rfl (by decide) rfl (by decide) rfl]
    exact labelPresent_attach (testWorld [] []).issueLabels "kubernetes" "kubernetes" 101
      testLabel
  · have h : handlePullRequest testLabel World.agent
        (testEvent PullRequestActionReviewRequested "non-owner") (testWorld [] [])
        = (none, testWorld [] []) := by
      unfold handlePullRequest
      rw [if_pos (by decide)]
    rw [h]
    rfl

/-! ## The resolver and the changed files -/

/-- C16: `loadReviewers` depends on the set of the changed paths only.  Two lists
with the same paths, in any order and with any repetition, give the same set, a
permutation and a list repeated twice in particular; and the result for a list is
a subset of the result for every list that contains its paths, so that an
identity authorized for a list stays authorized when paths are added. -/
theorem loadReviewers_depends_on_paths_only (ro : RepoOwner) (fs1 fs2 : List String) :
    ((∀ p, p ∈ fs1 ↔ p ∈ fs2) → loadReviewers ro fs1 = loadReviewers ro fs2) ∧
    (fs1.Perm fs2 → loadReviewers ro fs1 = loadReviewers ro fs2) ∧
    loadReviewers ro (fs1 ++ fs1) = loadReviewers ro fs1 ∧
    ((∀ p ∈ fs1, p ∈ fs2) → loadReviewers ro fs1 ⊆ loadReviewers ro fs2) ∧
    (∀ x, x ∈ loadReviewers ro fs1 → x ∈ loadReviewers ro (fs1 ++ fs2)) := by
  have hsub : ∀ (a b : List String), (∀ p ∈ a, p ∈ b) →
      loadReviewers ro a ⊆ loadReviewers ro b := by
    intro a b hab x hx
    obtain ⟨p, hp, hxp⟩ := (mem_loadReviewers ro a x).mp hx
    exact (mem_loadReviewers ro b x).mpr ⟨p, hab p hp, hxp⟩
  have heq : ∀ (a b : List String), (∀ p, p ∈ a ↔ p ∈ b) →
      loadReviewers ro a = loadReviewers ro b := by
    intro a b hab
    exact Finset.Subset.antisymm (hsub a b (fun p hp => (hab p).mp hp))
      (hsub b a (fun p hp => (hab p).mpr hp))
  refine ⟨heq fs1 fs2, fun hperm => heq fs1 fs2 (fun p => hperm.mem_iff), ?_,
    hsub fs1 fs2, ?_⟩
  · exact heq _ _ (fun p => by simp)
  · intro x hx
    exact hsub fs1 (fs1 ++ fs2) (fun p hp => List.mem_append.mpr (Or.inl hp)) hx

/-- C16 at the fake owners: the two orders of doc/README.md and
random-path/README.md, with a repetition, give the same set, and user-1,
authorized for doc/README.md alone, stays authorized with the other path added. -/
theorem loadReviewers_depends_on_paths_only_witness :
    loadReviewers createFakeOwnersClient ["doc/README.md", "random-path/README.md"]
      = loadReviewers createFakeOwnersClient
          ["random-path/README.md", "doc/README.md", "random-path/README.md"] ∧
    loadReviewers createFakeOwnersClient ["doc/README.md"]
      ⊆ loadReviewers createFakeOwnersClient ["random-path/README.md", "doc/README.md"] ∧
    "user-1" ∈ loadReviewers createFakeOwnersClient
      (["doc/README.md"] ++ ["random-path/README.md"]) :=
  ⟨(loadReviewers_depends_on_paths_only createFakeOwnersClient
      ["doc/README.md", "random-path/README.md"]
      ["random-path/README.md", "doc/README.md", "random-path/README.md"]).1
      (by intro p; simp only [List.mem_cons, List.mem_singleton, List.not_mem_nil]; tauto),
    (loadReviewers_depends_on_paths_only createFakeOwnersClient ["doc/README.md"]
      ["random-path/README.md", "doc/README.md"]).2.2.2.1 (by decide),
    (loadReviewers_depends_on_paths_only createFakeOwnersClient ["doc/README.md"]
      ["random-path/README.md"]).2.2.2.2 "user-1" (by decide)⟩

/-- C17: when `GetPullRequestChanges` succeeds, whatever the client and the world
are, `getChangedFiles` returns a nil error and the list of the file names of the
changes: it is as long as the list of changes and its i-th element is the file
name of the i-th change, the empty list for no change; so the authorized set of
these file names holds the approvers and the reviewers of every changed path. -/
theorem getChangedFiles_lists_every_filename {σ : Type} (gc : githubClient σ)
    (o r : String) (n : Int) (s s1 : σ) (changes : List PullRequestChange)
    (hok : gc.GetPullRequestChanges o r n s = (.ok changes, s1)) :
    getChangedFiles gc o r n s = (.ok (filenamesOf changes), s1) ∧
    (filenamesOf changes).length = changes.length ∧
    (∀ i : Nat, (filenamesOf changes)[i]?
      = (changes[i]?).map (fun (change : PullRequestChange) => change.Filename)) ∧
    (changes = [] → filenamesOf changes = []) ∧
    (∀ (ro : RepoOwner), ∀ change ∈ changes,
      ro.Approvers change.Filename ∪ ro.Reviewers change.Filename
        ⊆ loadReviewers ro (filenamesOf changes)) := by
  refine ⟨?_, ?_, ?_, ?_, ?_⟩
  · simp [getChangedFiles, hok, filenames_loop]
  · simp [filenamesOf]
  · intro i
    simp [filenamesOf]
  · intro h
    rw [h]
    rfl
  · intro ro change hchange x hx
    refine (mem_loadReviewers ro (filenamesOf changes) x).mpr ⟨change.Filename, ?_, ?_⟩
    · exact List.mem_map.mpr ⟨change, hchange, rfl⟩
    · exact Finset.mem_union.mp hx

/-- C17 at the test world with the changed files doc/README.md and
random-path/README.md: both names are returned, in this order. -/
theorem getChangedFiles_lists_every_filename_witness :
    (getChangedFiles World.githubClient "kubernetes" "kubernetes" 101
      (testWorld [] ["doc/README.md", "random-path/README.md"])).1
      = .ok ["doc/README.md", "random-path/README.md"] :=
  congrArg Prod.fst
    (getChangedFiles_lists_every_filename World.githubClient "kubernetes" "kubernetes" 101
      (testWorld [] ["doc/README.md", "random-path/README.md"])
      ((testWorld [] ["doc/README.md", "random-path/README.md"]).record
        (.GetPullRequestChanges "kubernetes" "kubernetes" 101))
      [⟨"doc/README.md"⟩, ⟨"random-path/README.md"⟩] rfl).1

end community
